import Mathlib

/-!
Shallow embedding of the hook scripts of this repository, together with
theorems about their behaviour.

Conventions used throughout:
* command text and file names are modelled as `List Char` (converted to and
  from `String` at the hook boundary);
* a JSON request read from standard input is modelled by a structure whose
  `Option` fields are the keys the script looks up (`none` models a missing
  key), and a request that fails to parse is modelled by `none` at type
  `Option _`;
* the sqlite stores are modelled as lists of row structures;
* filesystem facts (which paths exist, which marker files are present) enter
  the models as explicit parameters;
* the character classes `\w` and `\s` of Python regular expressions are
  modelled over ASCII.
-/

set_option maxRecDepth 4096

/-- Models the Python regex character class `\w` (ASCII part): letters,
digits and underscore. -/
def isWordChar (c : Char) : Bool := c.isAlphanum || c == '_'

/-- Models the Python regex character class `\s` (ASCII part): space, tab,
newline, carriage return, vertical tab and form feed. -/
def isSpaceChar (c : Char) : Bool :=
  c == ' ' || c == '\t' || c == '\n' || c == '\r' || c == '\x0b' || c == '\x0c'

/-- Models the Python string operator `in`: substring containment. -/
def containsSub (pat : List Char) : List Char → Bool
  | [] => pat.isEmpty
  | c :: cs => pat.isPrefixOf (c :: cs) || containsSub pat cs

/-- Models `command.replace("grep", "rg")` from grep-to-rg.py line 18: every
occurrence of the substring is replaced, scanning left to right without
overlap. -/
def replaceGrep : List Char → List Char
  | 'g' :: 'r' :: 'e' :: 'p' :: rest => 'r' :: 'g' :: replaceGrep rest
  | c :: cs => c :: replaceGrep cs
  | [] => []

/-- Models the part of the hook request that the command rewriters consult:
`toolName` is `input_data.get("tool_name")` and `command` is
`tool_input.get("command")`; `none` models a missing key (the scripts default
the command to the empty string). -/
structure HookInput where
  toolName : Option String
  command : Option String
deriving DecidableEq

/-- Models `tool_input.get("command", "")`. -/
def inputCommand (i : HookInput) : String := i.command.getD ""

/-- Models the JSON document a rewriter prints: the fields of
`hookSpecificOutput`, with `command` the field `updatedInput.command`. -/
structure HookOutput where
  hookEventName : String
  permissionDecision : String
  command : String
deriving DecidableEq

/-- Models grep-to-rg.py: for a Bash tool call whose command contains the
substring `grep`, emit the rewritten command; otherwise print nothing
(modelled by `none`). -/
def grepToRg (i : HookInput) : Option HookOutput :=
  if i.toolName = some "Bash" then
    if containsSub "grep".data (inputCommand i).data then
      some ⟨"PreToolUse", "allow", String.mk (replaceGrep (inputCommand i).data)⟩
    else none
  else none

/-! ### The npm-to-pnpm rewriter

Each `re.sub` call of npm-to-pnpm.py is modelled by a dedicated matcher
together with a generic left-to-right substitution driver.  A matcher takes
the word-character status of the preceding character (for `\b`) and the
current suffix, and returns the remainder after the matched text, or `none`.
-/

/-- Word boundary after a word character: the position is a boundary exactly
when the next character is absent or not a word character. -/
def boundaryAfter : List Char → Bool
  | [] => true
  | c :: _ => !isWordChar c

/-- Lookahead test for the tail of the regex `\s+(?!$)(?!-)`: given the text
following the consumed whitespace, `(?!$)` fails at the end of the string and
just before a trailing newline (Python `$` without MULTILINE), and `(?!-)`
fails when the next character is a dash. -/
def tailLookOk : List Char → Bool
  | [] => false
  | ['\n'] => false
  | '-' :: _ => false
  | _ => true

/-- Greedy matching of `\s+(?!$)(?!-)` with backtracking.  The first argument
is the reversed part of the maximal whitespace run still counted as
consumed; the second is the remainder.  Longer consumed runs are preferred;
at least one whitespace character must be consumed.  Returns the remainder
after the match. -/
def ws1LookRev : List Char → List Char → Option (List Char)
  | [], _ => none
  | c :: nur, rest => if tailLookOk rest then some rest else ws1LookRev nur (c :: rest)

/-- Models Python `$` (without MULTILINE): it matches at the end of the
string or just before a trailing newline. -/
def dollarOk : List Char → Bool
  | [] => true
  | ['\n'] => true
  | _ => false

/-- Greedy matching of `\s*$` with backtracking, in the style of
`ws1LookRev`; zero consumed whitespace characters are allowed. -/
def ws0DollarRev : List Char → List Char → Option (List Char)
  | [], rest => if dollarOk rest then some rest else none
  | c :: nur, rest => if dollarOk rest then some rest else ws0DollarRev nur (c :: rest)

/-- Matches the leading `\bnpm\s+` shared by the specific rewrite rules.
Since every continuation of `\s+` in those rules starts with a
non-whitespace character, only the maximal whitespace run can match, so no
backtracking is needed here.  Returns the text after the run. -/
def matchNpmWs (prevW : Bool) (s : List Char) : Option (List Char) :=
  if prevW then none
  else match s with
    | 'n' :: 'p' :: 'm' :: s3 =>
        let run := s3.takeWhile isSpaceChar
        if run.isEmpty then none else some (s3.drop run.length)
    | _ => none

/-- Matcher for `\bnpm\s+install\s+(?!$)(?!-)` (npm-to-pnpm.py line 28). -/
def mNpmInstallArg (prevW : Bool) (s : List Char) : Option (List Char) :=
  match matchNpmWs prevW s with
  | some r3 =>
      if "install".data.isPrefixOf r3 then
        let r4 := r3.drop 7
        let run2 := r4.takeWhile isSpaceChar
        ws1LookRev run2.reverse (r4.drop run2.length)
      else none
  | none => none

/-- Matcher for `\bnpm\s+i\s+(?!$)(?!-)` (npm-to-pnpm.py line 29). -/
def mNpmIArg (prevW : Bool) (s : List Char) : Option (List Char) :=
  match matchNpmWs prevW s with
  | some r3 =>
      if "i".data.isPrefixOf r3 then
        let r4 := r3.drop 1
        let run2 := r4.takeWhile isSpaceChar
        ws1LookRev run2.reverse (r4.drop run2.length)
      else none
  | none => none

/-- Matcher for `\bnpm\s+install\s+-g\b` (npm-to-pnpm.py line 32). -/
def mNpmInstallG (prevW : Bool) (s : List Char) : Option (List Char) :=
  match matchNpmWs prevW s with
  | some r3 =>
      if "install".data.isPrefixOf r3 then
        let r4 := r3.drop 7
        let run2 := r4.takeWhile isSpaceChar
        let r5 := r4.drop run2.length
        if !run2.isEmpty && "-g".data.isPrefixOf r5 && boundaryAfter (r5.drop 2) then
          some (r5.drop 2)
        else none
      else none
  | none => none

/-- Matcher for `\bnpm\s+i\s+-g\b` (npm-to-pnpm.py line 33). -/
def mNpmIG (prevW : Bool) (s : List Char) : Option (List Char) :=
  match matchNpmWs prevW s with
  | some r3 =>
      if "i".data.isPrefixOf r3 then
        let r4 := r3.drop 1
        let run2 := r4.takeWhile isSpaceChar
        let r5 := r4.drop run2.length
        if !run2.isEmpty && "-g".data.isPrefixOf r5 && boundaryAfter (r5.drop 2) then
          some (r5.drop 2)
        else none
      else none
  | none => none

/-- Matcher for `\bnpm\s+uninstall\b` (npm-to-pnpm.py line 36). -/
def mNpmUninstall (prevW : Bool) (s : List Char) : Option (List Char) :=
  match matchNpmWs prevW s with
  | some r3 =>
      if "uninstall".data.isPrefixOf r3 && boundaryAfter (r3.drop 9) then some (r3.drop 9)
      else none
  | none => none

/-- Matcher for `\bnpm\s+un\b` (npm-to-pnpm.py line 37). -/
def mNpmUn (prevW : Bool) (s : List Char) : Option (List Char) :=
  match matchNpmWs prevW s with
  | some r3 =>
      if "un".data.isPrefixOf r3 && boundaryAfter (r3.drop 2) then some (r3.drop 2)
      else none
  | none => none

/-- Matcher for `\bnpm\s+install\s*$` (npm-to-pnpm.py line 40). -/
def mNpmInstallEnd (prevW : Bool) (s : List Char) : Option (List Char) :=
  match matchNpmWs prevW s with
  | some r3 =>
      if "install".data.isPrefixOf r3 then
        let r4 := r3.drop 7
        let run2 := r4.takeWhile isSpaceChar
        ws0DollarRev run2.reverse (r4.drop run2.length)
      else none
  | none => none

/-- Matcher for `\bnpm\s+i\s*$` (npm-to-pnpm.py line 41). -/
def mNpmIEnd (prevW : Bool) (s : List Char) : Option (List Char) :=
  match matchNpmWs prevW s with
  | some r3 =>
      if "i".data.isPrefixOf r3 then
        let r4 := r3.drop 1
        let run2 := r4.takeWhile isSpaceChar
        ws0DollarRev run2.reverse (r4.drop run2.length)
      else none
  | none => none

/-- Matcher for `\bnpm\b` (npm-to-pnpm.py line 44, and the trigger search on
line 20).  Written with an explicit condition to ease case analysis. -/
def mNpmWord (prevW : Bool) (s : List Char) : Option (List Char) :=
  if prevW then none
  else match s with
    | c1 :: c2 :: c3 :: rest =>
        if c1 = 'n' ∧ c2 = 'p' ∧ c3 = 'm' ∧ boundaryAfter rest = true then some rest
        else none
    | _ => none

/-- Models one `re.sub` call: scan the text left to right, replacing every
non-overlapping match.  Matching happens against the original text: after a
replacement, scanning resumes on the original remainder, and the `\b`
context is the word-character status of the last consumed original
character.  The fuel is the length of the scanned text; since every matcher
used here consumes at least one character, the fuel never runs out. -/
def reSubF (m : Bool → List Char → Option (List Char)) (repl : List Char) :
    Nat → Bool → List Char → List Char
  | 0, _, _ => []
  | _ + 1, _, [] => []
  | fuel + 1, prevW, c :: cs =>
    match m prevW (c :: cs) with
    | some rest =>
        let consumed := (c :: cs).take ((c :: cs).length - rest.length)
        let pw := match consumed.getLast? with
                  | some d => isWordChar d
                  | none => prevW
        repl ++ reSubF m repl fuel pw rest
    | none => c :: reSubF m repl fuel (isWordChar c) cs

/-- Entry point of the substitution driver: at the start of the string there
is no preceding character, so the preceding word-character status is false. -/
def reSub (m : Bool → List Char → Option (List Char)) (repl : List Char)
    (s : List Char) : List Char :=
  reSubF m repl s.length false s

/-- Models the ordered rewrite pipeline of npm-to-pnpm.py lines 24-44: the
specific rules run first, in source order, and the blanket `\bnpm\b → pnpm`
replacement runs last. -/
def npmRewrite (command : List Char) : List Char :=
  let c1 := reSub mNpmInstallArg "pnpm add ".data command
  let c2 := reSub mNpmIArg "pnpm add ".data c1
  let c3 := reSub mNpmInstallG "pnpm add -g".data c2
  let c4 := reSub mNpmIG "pnpm add -g".data c3
  let c5 := reSub mNpmUninstall "pnpm remove".data c4
  let c6 := reSub mNpmUn "pnpm remove".data c5
  let c7 := reSub mNpmInstallEnd "pnpm install".data c6
  let c8 := reSub mNpmIEnd "pnpm install".data c7
  reSub mNpmWord "pnpm".data c8

/-- Models `re.search(r'\bnpm\b', s)` as a Boolean: scan every position,
tracking the word-character status of the previous character. -/
def hasWordNpm : Bool → List Char → Bool
  | _, [] => false
  | prevW, c :: cs => (mNpmWord prevW (c :: cs)).isSome || hasWordNpm (isWordChar c) cs

/-- Models npm-to-pnpm.py: for a Bash tool call whose command contains the
word-bounded token `npm`, emit the rewritten command; otherwise print
nothing. -/
def npmToPnpm (i : HookInput) : Option HookOutput :=
  if i.toolName = some "Bash" then
    if hasWordNpm false (inputCommand i).data then
      some ⟨"PreToolUse", "allow", String.mk (npmRewrite (inputCommand i).data)⟩
    else none
  else none

/-! ### The test runner -/

/-- Membership of a string in another, used for matching a pattern of shape
`LIT .* SUF $` against the text after the literal: the text must decompose
as mid plus the suf plus an end-of-string position, where mid contains no
newline (Python `.` does not match newline) and `$` matches at the end or
just before one trailing newline. -/
def dotStarThen (suf : List Char) (t : List Char) : Bool :=
  (suf.isSuffixOf t && (t.take (t.length - suf.length)).all (fun c => !(c == '\n')))
  || ((suf ++ ['\n']).isSuffixOf t
      && (t.take (t.length - suf.length - 1)).all (fun c => !(c == '\n')))

/-- Models `re.search` for a pattern of shape `LIT .* SUF $` (all the test
file patterns of test-runner.py have this shape): try the literal at every
position, then match the rest with `dotStarThen`. -/
def searchLitThen (l suf : List Char) : List Char → Bool
  | [] => l.isEmpty && dotStarThen suf []
  | c :: cs =>
      (l.isPrefixOf (c :: cs) && dotStarThen suf ((c :: cs).drop l.length))
      || searchLitThen l suf cs

/-- Models the python entry of TEST_PATTERNS: `test_.*\.py$` or
`.*_test\.py$`. -/
def pyTestFile (fp : List Char) : Bool :=
  searchLitThen "test_".data ".py".data fp || searchLitThen [] "_test.py".data fp

/-- Models the javascript entry of TEST_PATTERNS:
`.*\.test\.(js|ts|jsx|tsx)$` or `.*\.spec\.(js|ts|jsx|tsx)$`; the
alternation becomes a disjunction over the four literal endings. -/
def jsTestFile (fp : List Char) : Bool :=
  (["js", "ts", "jsx", "tsx"].any fun ext =>
    searchLitThen [] (".test.".data ++ ext.data) fp
    || searchLitThen [] (".spec.".data ++ ext.data) fp)

/-- Models the go entry of TEST_PATTERNS: `.*_test\.go$`. -/
def goTestFile (fp : List Char) : Bool := searchLitThen [] "_test.go".data fp

/-- Models the rust entry of TEST_PATTERNS: `tests/.*\.rs$`. -/
def rustTestFile (fp : List Char) : Bool := searchLitThen "tests/".data ".rs".data fp

/-- Models is_test_file (test-runner.py lines 55-61): the languages are tried
in the insertion order of TEST_PATTERNS (python, javascript, go, rust) and
the first language with a matching pattern wins. -/
def is_test_file (fp : List Char) : Bool × Option String :=
  if pyTestFile fp then (true, some "python")
  else if jsTestFile fp then (true, some "javascript")
  else if goTestFile fp then (true, some "go")
  else if rustTestFile fp then (true, some "rust")
  else (false, none)

/-- Models `[p.strip() for p in file_paths_str.split(",") if p.strip()]`
(test-runner.py line 45). -/
def parsePaths (s : String) : List String :=
  ((s.splitOn ",").map String.trim).filter (fun p => p ≠ "")

/-- Models the classification loop of test-runner.py lines 179-188: keep, in
order, the touched paths that are nonempty, name existing files and are test
files; the language is the one detected for the first such path.  The
filesystem test `os.path.isfile` enters as the parameter `isFile`. -/
def classifyFiles (isFile : String → Bool) : List String → List String × Option String
  | [] => ([], none)
  | fp :: rest =>
      if fp ≠ "" ∧ isFile fp = true then
        if (is_test_file fp.data).1 then
          ((fp :: (classifyFiles isFile rest).1),
            match (is_test_file fp.data).2 with
            | some l => some l
            | none => (classifyFiles isFile rest).2)
        else classifyFiles isFile rest
      else classifyFiles isFile rest

/-- Models detect_test_framework (test-runner.py lines 63-92).  The marker
file checks enter as parameters.  The javascript branch returns `npm test`
on every path: the package.json inspection answers `npm test` whether or not
the script entry is found, and a read or parse failure is swallowed by the
bare except before reaching the same default. -/
def detect_test_framework (language : String) (hasPytestIni hasPyproject : Bool) :
    Option String :=
  if language = "python" then
    if hasPytestIni || hasPyproject then some "pytest" else some "python -m unittest"
  else if language = "javascript" then some "npm test"
  else if language = "go" then some "go test"
  else if language = "rust" then some "cargo test"
  else none

/-- Models the scope decision of run_tests (test-runner.py lines 98-113):
with at most three classified test files, a framework-specific scoped
command is built (detected by substring tests on the framework command);
with more than three, the full-suite command runs.  The caller guarantees a
nonempty file list (the hook exits earlier otherwise), so the `headD`
default is never used. -/
def buildTestCmd (test_command : String) (test_files : List String)
    (project_dir : String) : String :=
  if test_files.length ≤ 3 then
    if containsSub "pytest".data test_command.data then
      "cd " ++ project_dir ++ " && pytest " ++ String.intercalate " " test_files ++ " -v"
    else if containsSub "npm test".data test_command.data then
      "cd " ++ project_dir ++ " && npm test -- --testPathPattern=\"" ++
        test_files.headD "" ++ "\""
    else if containsSub "go test".data test_command.data then
      "cd " ++ project_dir ++ " && go test -v " ++ String.intercalate " " test_files
    else if containsSub "cargo test".data test_command.data then
      "cd " ++ project_dir ++ " && cargo test"
    else "cd " ++ project_dir ++ " && " ++ test_command
  else "cd " ++ project_dir ++ " && " ++ test_command

/-- Models the top-level flow of test-runner.py up to the command it would
execute: `none` when the hook stops with no effect (wrong tool, empty path
list, no classified test files, or no framework). -/
def testRunnerDecision (toolName : Option String) (envPaths : String)
    (isFile : String → Bool) (hasPytestIni hasPyproject : Bool)
    (projectDir : String) : Option String :=
  if toolName.getD "" = "Edit" ∨ toolName.getD "" = "Write" then
    if envPaths = "" then none
    else
      if (classifyFiles isFile (parsePaths envPaths)).1 = [] then none
      else
        match (classifyFiles isFile (parsePaths envPaths)).2 with
        | none => none
        | some lang =>
          match detect_test_framework lang hasPytestIni hasPyproject with
          | none => none
          | some tc =>
              some (buildTestCmd tc (classifyFiles isFile (parsePaths envPaths)).1 projectDir)
  else none

/-! ### The sqlite-backed loggers -/

/-- Exit behaviour of one hook process: `ok` models `sys.exit(0)`, `exit1`
models `sys.exit(1)`, and `uncaught` models a Python exception escaping the
script (a nonzero exit status). -/
inductive HookExit where
  | ok : HookExit
  | exit1 : HookExit
  | uncaught : HookExit
deriving DecidableEq

/-- Models one row of the tool_calls table (command-tracker.py lines 48-60).
Timestamps are modelled as whole seconds. -/
structure ToolCallRow where
  session_id : String
  timestamp : Nat
  tool_type : String
  file_path : Option String
  command : Option String
  pattern : Option String
  description : Option String
  params_json : String
  success : Bool
deriving DecidableEq

/-- Models the fields command-tracker.py extracts from its request:
`tool_name` is `input_data.get("tool_name", "unknown")` before defaulting,
the four optional fields are `tool_input.get(...)`, and `params_json` stands
for `json.dumps(tool_input)`. -/
structure CTInput where
  tool_name : Option String
  file_path : Option String
  command : Option String
  pattern : Option String
  description : Option String
  params_json : String
deriving DecidableEq

/-- Models one run of command-tracker.py: a malformed request (`stdin =
none`) raises out of `json.load`; a store failure (`dbOk = false`) raises
out of sqlite; otherwise exactly one row is appended and the hook exits 0.
`now` models the insertion timestamp default. -/
def commandTrackerRun (env : Option String) (now : Nat) (stdin : Option CTInput)
    (dbOk : Bool) (db : List ToolCallRow) : List ToolCallRow × HookExit :=
  match stdin with
  | none => (db, .uncaught)
  | some i =>
    if dbOk then
      (db ++ [{ session_id := env.getD "unknown", timestamp := now,
                tool_type := i.tool_name.getD "unknown",
                file_path := i.file_path, command := i.command,
                pattern := i.pattern, description := i.description,
                params_json := i.params_json, success := true }], .ok)
    else (db, .uncaught)

/-- Models one row of the sessions table (session-tracker.py lines 41-52). -/
structure SessionRow where
  id : String
  timestamp : Nat
  duration_seconds : Nat
  model : String
  summary : String
  tool_count : Nat
  file_count : Nat
  command_count : Nat
deriving DecidableEq

/-- Models `SELECT COUNT(*) FROM tool_calls WHERE session_id = S`. -/
def toolCount (db : List ToolCallRow) (S : String) : Nat :=
  (db.filter (fun r => r.session_id == S)).length

/-- Models `SELECT COUNT(DISTINCT file_path) ... WHERE session_id = S AND
file_path IS NOT NULL`. -/
def fileCount (db : List ToolCallRow) (S : String) : Nat :=
  (((db.filter (fun r => r.session_id == S)).filterMap (fun r => r.file_path)).dedup).length

/-- Models `SELECT COUNT(*) ... WHERE session_id = S AND tool_type =
'Bash'`. -/
def commandCount (db : List ToolCallRow) (S : String) : Nat :=
  ((db.filter (fun r => r.session_id == S)).filter (fun r => r.tool_type == "Bash")).length

/-- Models the julianday difference query of session-tracker.py lines 85-91:
seconds between the earliest and latest timestamp of the session, zero when
the session has no rows (the NULL result falls back to 0). -/
def durationSeconds (db : List ToolCallRow) (S : String) : Nat :=
  match (db.filter (fun r => r.session_id == S)).map (fun r => r.timestamp) with
  | [] => 0
  | t :: ts => ts.foldl max t - ts.foldl min t

/-- Models the summary template of session-tracker.py line 98. -/
def sessionSummary (tc fc cc : Nat) : String :=
  "Session completed: " ++ toString tc ++ " tools, " ++ toString fc ++
    " files, " ++ toString cc ++ " commands"

/-- The four statistics of session-tracker.py lines 55-95: computed from the
tool-call store when it can be read, all zero when reading fails. -/
structure SessionStats where
  tool_count : Nat
  file_count : Nat
  command_count : Nat
  duration_seconds : Nat
deriving DecidableEq

/-- Models session-tracker.py lines 55-95: the try block around the
tool-call store reads; `toolDb = none` models any read failure (missing
file, locked file, schema mismatch), which falls back to zero statistics. -/
def sessionStats (toolDb : Option (List ToolCallRow)) (S : String) : SessionStats :=
  match toolDb with
  | some db => ⟨toolCount db S, fileCount db S, commandCount db S, durationSeconds db S⟩
  | none => ⟨0, 0, 0, 0⟩

/-- Models `INSERT OR REPLACE INTO sessions` keyed by id: any row with the
same id is removed and the new row appended. -/
def upsertSession (db : List SessionRow) (r : SessionRow) : List SessionRow :=
  db.filter (fun x => !(x.id == r.id)) ++ [r]

/-- Models one run of session-tracker.py.  A malformed request raises out of
`json.load`; a failure of the sessions store itself (`sessDbOk = false`)
raises; a failure of the tool-call store read (`toolDb = none`) is caught
and yields zero statistics.  The request body is otherwise unused, so a
well-formed request is `some ()`. -/
def sessionTrackerRun (envSession envModel : Option String) (now : Nat)
    (stdin : Option Unit) (toolDb : Option (List ToolCallRow)) (sessDbOk : Bool)
    (sessDb : List SessionRow) : List SessionRow × HookExit :=
  match stdin with
  | none => (sessDb, .uncaught)
  | some _ =>
    if sessDbOk then
      (upsertSession sessDb
        { id := envSession.getD "unknown", timestamp := now,
          duration_seconds := (sessionStats toolDb (envSession.getD "unknown")).duration_seconds,
          model := envModel.getD "unknown",
          summary := sessionSummary
            (sessionStats toolDb (envSession.getD "unknown")).tool_count
            (sessionStats toolDb (envSession.getD "unknown")).file_count
            (sessionStats toolDb (envSession.getD "unknown")).command_count,
          tool_count := (sessionStats toolDb (envSession.getD "unknown")).tool_count,
          file_count := (sessionStats toolDb (envSession.getD "unknown")).file_count,
          command_count := (sessionStats toolDb (envSession.getD "unknown")).command_count },
       .ok)
    else (sessDb, .uncaught)

/-- Models one row of the subagent_sessions table (subagent-tracker.py lines
44-54); the files list stands for its own json serialization. -/
structure SubagentRow where
  parent_session_id : String
  timestamp : Nat
  subagent_type : String
  summary : String
  files_modified_json : List String
  file_count : Nat
deriving DecidableEq

/-- Models the fields subagent-tracker.py reads from its request. -/
structure SAInput where
  subagent_type : Option String
  summary : Option String
  files_modified : Option (List String)
deriving DecidableEq

/-- Models one run of subagent-tracker.py, with the same failure modes as
the tool-call logger. -/
def subagentTrackerRun (env : Option String) (now : Nat) (stdin : Option SAInput)
    (dbOk : Bool) (db : List SubagentRow) : List SubagentRow × HookExit :=
  match stdin with
  | none => (db, .uncaught)
  | some i =>
    if dbOk then
      (db ++ [{ parent_session_id := env.getD "unknown", timestamp := now,
                subagent_type := i.subagent_type.getD "unknown",
                summary := i.summary.getD "",
                files_modified_json := i.files_modified.getD [],
                file_count := (i.files_modified.getD []).length }], .ok)
    else (db, .uncaught)

/-- Models one run of grep-to-rg.py together with its exit status: every
path after a successful parse reaches `sys.exit(0)`. -/
def grepToRgRun (stdin : Option HookInput) : Option HookOutput × HookExit :=
  match stdin with
  | none => (none, .uncaught)
  | some i => (grepToRg i, .ok)

/-- Models one run of npm-to-pnpm.py together with its exit status. -/
def npmToPnpmRun (stdin : Option HookInput) : Option HookOutput × HookExit :=
  match stdin with
  | none => (none, .uncaught)
  | some i => (npmToPnpm i, .ok)

/-- Models the observable outcome of the test subprocess in run_tests. -/
inductive TestOutcome where
  | completed : Int → TestOutcome
  | timedOut : TestOutcome
  | raised : TestOutcome
deriving DecidableEq

/-- Models one run of test-runner.py together with its exit status: the
subprocess is wrapped in a try block catching TimeoutExpired and every other
exception (lines 115-176), so after a successful parse the hook always
reaches `sys.exit(0)` whatever the test outcome. -/
def testRunnerRun (stdin : Option HookInput) (envPaths : String)
    (isFile : String → Bool) (hasPytestIni hasPyproject : Bool)
    (projectDir : String) (_outcome : TestOutcome) : Option String × HookExit :=
  match stdin with
  | none => (none, .uncaught)
  | some i =>
      (testRunnerDecision i.toolName envPaths isFile hasPytestIni hasPyproject projectDir,
       .ok)

/-! ### The deployer -/

/-- Models one `{name, type, command}` registration entry of settings.json. -/
structure HookEntry where
  name : String
  type : String
  command : String
deriving DecidableEq

/-- Models one group of the per-event registration list. -/
structure HookGroup where
  hooks : List HookEntry
deriving DecidableEq

/-- Models the "hooks" object of settings.json: an insertion-ordered mapping
from event type to a list of groups. -/
abbrev HookSettings := List (String × List HookGroup)

/-- Models one deployed hook file: its stem (filename without the last
extension, as computed by pathlib) and the destination path string used as
the registration command. -/
structure DeployedHook where
  stem : String
  path : String
deriving DecidableEq

/-- Lowercases a string character by character (ASCII, as the hook names
are). -/
def toLowerStr (s : String) : String := String.mk (s.data.map Char.toLower)

/-- Models deploy_hooks.py lines 84-93: infer the event type of a hook from
substrings of its lowercased stem, defaulting to PreToolUse. -/
def inferEventType (stem : String) : String :=
  if containsSub "pre-tool".data (toLowerStr stem).data
      || containsSub "grep-to-rg".data (toLowerStr stem).data then "PreToolUse"
  else if containsSub "post-tool".data (toLowerStr stem).data then "PostToolUse"
  else if containsSub "prompt".data (toLowerStr stem).data then "UserPromptSubmit"
  else "PreToolUse"

/-- Ordered-dictionary update: replace the value in place when the key is
present, append the pair otherwise. -/
def assocSet (k : String) (v : α) : List (String × α) → List (String × α)
  | [] => [(k, v)]
  | (k', v') :: rest => if k' = k then (k, v) :: rest else (k', v') :: assocSet k v rest

/-- Models deploy_hooks.py lines 79-101: group the new registration entries
by inferred event type, in deployment order. -/
def buildHookConfigs (deployed : List DeployedHook) : List (String × List HookEntry) :=
  deployed.foldl
    (fun cfg h =>
      match cfg.lookup (inferEventType h.stem) with
      | some l =>
          assocSet (inferEventType h.stem)
            (l ++ [⟨h.stem, "command", h.path⟩]) cfg
      | none => cfg ++ [(inferEventType h.stem, [⟨h.stem, "command", h.path⟩])])
    []

/-- Models deploy_hooks.py lines 104-125 for one event type: only the first
group is rewritten; its entries whose command equals one of the new commands
are removed, then the new entries are appended.  A missing or empty group
list is first replaced by one empty group. -/
def mergeEvent (groups : List HookGroup) (newHooks : List HookEntry) : List HookGroup :=
  match (if groups.isEmpty then [⟨[]⟩] else groups) with
  | [] => []
  | g :: rest =>
      ⟨g.hooks.filter (fun h => !((newHooks.map (fun n => n.command)).contains h.command))
        ++ newHooks⟩ :: rest

/-- Models update_settings (deploy_hooks.py lines 70-132) restricted to the
"hooks" object it rewrites. -/
def update_settings (settings : HookSettings) (deployed : List DeployedHook) :
    HookSettings :=
  (buildHookConfigs deployed).foldl
    (fun s ev => assocSet ev.1 (mergeEvent ((s.lookup ev.1).getD []) ev.2) s)
    settings

/-- The entries of the first group of a group list (empty when there is no
group). -/
def hookList0 : List HookGroup → List HookEntry
  | [] => []
  | g :: _ => g.hooks

/-- The registration entries of the first group of an event type. -/
def group0 (s : HookSettings) (e : String) : List HookEntry :=
  hookList0 ((s.lookup e).getD [])

/-- All command paths registered under an event type, across all groups. -/
def eventCommands (s : HookSettings) (e : String) : List String :=
  (((s.lookup e).getD []).map (fun g => g.hooks.map (fun h => h.command))).flatten

/-- Number of entries of a list carrying a given command path. -/
def countCmd (l : List HookEntry) (c : String) : Nat :=
  l.countP (fun h => h.command == c)

/-- Models get_hook_files (deploy_hooks.py lines 26-37): `none` models a
missing source directory (which yields the empty list); otherwise the
package marker file is excluded. -/
def get_hook_files (sourceDir : Option (List String)) : List String :=
  match sourceDir with
  | none => []
  | some files => files.filter (fun f => !(f == "__init__.py"))

/-- Models pathlib stem: the name without its last extension; a name without
a dot, or whose only dot leads, is its own stem. -/
def stemOf (name : String) : String :=
  if (name.data.reverse.takeWhile (fun c => !(c == '.'))).length = name.data.length then name
  else
    if (name.data.reverse.drop
          ((name.data.reverse.takeWhile (fun c => !(c == '.'))).length + 1)).isEmpty then name
    else
      String.mk ((name.data.reverse.drop
        ((name.data.reverse.takeWhile (fun c => !(c == '.'))).length + 1)).reverse)

/-- The predicate selecting the touched paths that the classification loop
keeps: the path is nonempty, names an existing file and is a test file. -/
def touchedTestFile (isFile : String → Bool) (fp : String) : Bool :=
  decide (fp ≠ "") && isFile fp && (is_test_file fp.data).1

/-- Models main of deploy_hooks.py: exit 1 exactly when no hooks are found
(missing directory or nothing besides the package marker); otherwise copy
(not modelled), merge the registrations and exit 0.  The destination
directory prefix stands for the expanded `~/.claude/hooks/`. -/
def deployerRun (sourceDir : Option (List String)) (settings : HookSettings) :
    HookSettings × HookExit :=
  if (get_hook_files sourceDir).isEmpty then (settings, .exit1)
  else
    (update_settings settings
      ((get_hook_files sourceDir).map
        (fun f => ⟨stemOf f, "~/.claude/hooks/" ++ f⟩)),
     .ok)

/-! ### Theorems

Helper lemmas come first; the claim theorems follow, one per claim.
-/

theorem filter_upsert_key (db : List SessionRow) (r : SessionRow) (S : String)
    (h : r.id = S) : (upsertSession db r).filter (fun x => x.id == S) = [r] := by
  subst h
  unfold upsertSession
  rw [List.filter_append]
  have h1 : (db.filter (fun x => !(x.id == r.id))).filter (fun x => x.id == r.id) = [] := by
    induction db with
    | nil => rfl
    | cons a t ih =>
        by_cases h : a.id = r.id <;> simp [List.filter_cons, h, ih]
  rw [h1]
  simp

/-- Claim C4: the grep rewriter replaces every occurrence of the substring
`grep` with `rg` (substring-based, also inside longer words) for Bash
commands containing the trigger, and emits nothing for other tools or for
commands without the trigger. -/
theorem grep_rewriter_subst :
    (∀ i : HookInput, i.toolName = some "Bash" →
        containsSub "grep".data (inputCommand i).data = true →
        grepToRg i =
          some ⟨"PreToolUse", "allow", String.mk (replaceGrep (inputCommand i).data)⟩)
    ∧ (∀ i : HookInput, i.toolName ≠ some "Bash" → grepToRg i = none)
    ∧ (∀ i : HookInput, containsSub "grep".data (inputCommand i).data = false →
        grepToRg i = none)
    ∧ replaceGrep "grepfoo".data = "rgfoo".data
    ∧ grepToRg ⟨some "Bash", some "grep -r foo grepfoo"⟩ =
        some ⟨"PreToolUse", "allow", "rg -r foo rgfoo"⟩ := by
  refine ⟨?_, ?_, ?_, by decide, by decide⟩
  · intro i h1 h2
    simp [grepToRg, h1, h2]
  · intro i h
    simp [grepToRg, h]
  · intro i h
    simp [grepToRg, h]

theorem grep_rewriter_subst_witness :
    grepToRg ⟨some "Bash", some "grep x"⟩ =
      some ⟨"PreToolUse", "allow",
        String.mk (replaceGrep (inputCommand ⟨some "Bash", some "grep x"⟩).data)⟩ :=
  grep_rewriter_subst.1 ⟨some "Bash", some "grep x"⟩ rfl (by decide)

/-- Claim C1 (code bug): with at most three classified test files the pytest,
go test and npm test commands are scoped exactly as the claim states, and
with more than three files the full-suite command runs whatever the
framework; but for the cargo framework with at most three files the code
builds a `go test -v` command, not the claimed unscoped `cargo test`,
because the substring check `'go test' in test_command` also matches
`cargo test` and shadows the cargo branch (test-runner.py lines 105-108). -/
theorem test_runner_scope (files : List String) (dir : String) (_hne : files ≠ []) :
    (files.length ≤ 3 →
        buildTestCmd "pytest" files dir =
          "cd " ++ dir ++ " && pytest " ++ String.intercalate " " files ++ " -v"
      ∧ buildTestCmd "go test" files dir =
          "cd " ++ dir ++ " && go test -v " ++ String.intercalate " " files
      ∧ buildTestCmd "npm test" files dir =
          "cd " ++ dir ++ " && npm test -- --testPathPattern=\"" ++ files.headD "" ++ "\""
      ∧ buildTestCmd "cargo test" files dir =
          "cd " ++ dir ++ " && go test -v " ++ String.intercalate " " files)
    ∧ (3 < files.length →
        ∀ tc : String, buildTestCmd tc files dir = "cd " ++ dir ++ " && " ++ tc)
    ∧ buildTestCmd "cargo test" ["tests/a.rs"] "p" = "cd p && go test -v tests/a.rs"
    ∧ buildTestCmd "cargo test" ["tests/a.rs"] "p" ≠ "cd p && cargo test" := by
  refine ⟨?_, ?_, by decide, by decide⟩
  · intro h
    have e1 : containsSub "pytest".data ("pytest" : String).data = true := by decide
    have e2 : containsSub "pytest".data ("go test" : String).data = false := by decide
    have e3 : containsSub "npm test".data ("go test" : String).data = false := by decide
    have e4 : containsSub "go test".data ("go test" : String).data = true := by decide
    have e5 : containsSub "pytest".data ("npm test" : String).data = false := by decide
    have e6 : containsSub "npm test".data ("npm test" : String).data = true := by decide
    have e7 : containsSub "pytest".data ("cargo test" : String).data = false := by decide
    have e8 : containsSub "npm test".data ("cargo test" : String).data = false := by decide
    have e9 : containsSub "go test".data ("cargo test" : String).data = true := by decide
    refine ⟨?_, ?_, ?_, ?_⟩ <;>
      simp [buildTestCmd, h, e1, e2, e3, e4, e5, e6, e7, e8, e9]
  · intro h tc
    have h' : ¬ files.length ≤ 3 := by omega
    simp [buildTestCmd, h']

theorem test_runner_scope_witness :
    buildTestCmd "cargo test" ["a"] "p" = "cd " ++ "p" ++ " && go test -v " ++
      String.intercalate " " ["a"] :=
  ((test_runner_scope ["a"] "p" (by decide)).1 (by decide)).2.2.2

/-- Claim C8: every run of the tool-call logger on a well-formed request
appends exactly one row, with the optional fields stored as given (absent
means null), the session defaulting to "unknown" and the success flag true;
N runs with the same session add N rows for that session. -/
theorem tool_call_logger_insertion :
    (∀ (env : Option String) (now : Nat) (i : CTInput) (db : List ToolCallRow),
        (commandTrackerRun env now (some i) true db).1 =
          db ++ [{ session_id := env.getD "unknown", timestamp := now,
                   tool_type := i.tool_name.getD "unknown",
                   file_path := i.file_path, command := i.command,
                   pattern := i.pattern, description := i.description,
                   params_json := i.params_json, success := true }])
    ∧ (∀ (S : String) (inputs : List (Nat × CTInput)) (db : List ToolCallRow),
        ((inputs.foldl
            (fun d ti => (commandTrackerRun (some S) ti.1 (some ti.2) true d).1)
            db).filter (fun r => r.session_id == S)).length =
          (db.filter (fun r => r.session_id == S)).length + inputs.length) := by
  constructor
  · intro env now i db
    rfl
  · intro S inputs
    induction inputs with
    | nil => intro db; simp
    | cons ti rest ih =>
        intro db
        rw [List.foldl_cons, ih]
        simp [commandTrackerRun, List.filter_append, List.filter_cons]
        omega

/-- Claim C2: one run of the session logger leaves exactly one sessions row
keyed by the session identifier, holding the aggregates of the tool-call
store (row count, distinct non-null file paths, Bash rows, elapsed seconds
between the earliest and latest timestamp, zero with at most one row); a
second run in a row again leaves exactly one row, with the second run's
values. -/
theorem session_logger_aggregation (S : String) (em : Option String) (now : Nat)
    (rows : List ToolCallRow) (sessDb : List SessionRow) :
    ((sessionTrackerRun (some S) em now (some ()) (some rows) true sessDb).1.filter
        (fun r => r.id == S)) =
      [{ id := S, timestamp := now,
         duration_seconds := durationSeconds rows S,
         model := em.getD "unknown",
         summary := sessionSummary (toolCount rows S) (fileCount rows S)
           (commandCount rows S),
         tool_count := toolCount rows S, file_count := fileCount rows S,
         command_count := commandCount rows S }]
    ∧ toolCount rows S = (rows.filter (fun r => r.session_id == S)).length
    ∧ commandCount rows S =
        ((rows.filter (fun r => r.session_id == S)).filter
          (fun r => r.tool_type == "Bash")).length
    ∧ fileCount rows S =
        (((rows.filter (fun r => r.session_id == S)).filterMap
          (fun r => r.file_path)).dedup).length
    ∧ ((rows.filter (fun r => r.session_id == S)).length ≤ 1 →
        durationSeconds rows S = 0)
    ∧ (∀ (em2 : Option String) (now2 : Nat) (rows2 : List ToolCallRow),
        ((sessionTrackerRun (some S) em2 now2 (some ()) (some rows2) true
            (sessionTrackerRun (some S) em now (some ()) (some rows) true sessDb).1).1.filter
          (fun r => r.id == S)) =
        [{ id := S, timestamp := now2,
           duration_seconds := durationSeconds rows2 S,
           model := em2.getD "unknown",
           summary := sessionSummary (toolCount rows2 S) (fileCount rows2 S)
             (commandCount rows2 S),
           tool_count := toolCount rows2 S, file_count := fileCount rows2 S,
           command_count := commandCount rows2 S }]) := by
  refine ⟨?_, rfl, rfl, rfl, ?_, ?_⟩
  · exact filter_upsert_key _ _ _ rfl
  · intro h
    unfold durationSeconds
    rcases hfil : rows.filter (fun r => r.session_id == S) with _ | ⟨a, t⟩
    · rw [hfil]
      rfl
    · rw [hfil] at h
      rw [hfil]
      have ht : t = [] := by
        simp only [List.length_cons] at h
        exact List.length_eq_zero.mp (by omega)
      subst ht
      simp
  · intro em2 now2 rows2
    exact filter_upsert_key _ _ _ rfl

theorem session_logger_aggregation_witness :
    durationSeconds ([] : List ToolCallRow) "S" = 0 :=
  (session_logger_aggregation "S" none 5 [] []).2.2.2.2.1 (by decide)

/-- Claim C7: when reading the tool-call store fails, the session logger
falls back to all-zero statistics, still upserts exactly one row for the
session, and finishes the session-end event with exit status 0. -/
theorem session_logger_failure_fallback (envS envM : Option String) (now : Nat)
    (sessDb : List SessionRow) :
    sessionStats none (envS.getD "unknown") = ⟨0, 0, 0, 0⟩
    ∧ (sessionTrackerRun envS envM now (some ()) none true sessDb).2 = HookExit.ok
    ∧ ((sessionTrackerRun envS envM now (some ()) none true sessDb).1.filter
        (fun r => r.id == envS.getD "unknown")) =
      [{ id := envS.getD "unknown", timestamp := now, duration_seconds := 0,
         model := envM.getD "unknown", summary := sessionSummary 0 0 0,
         tool_count := 0, file_count := 0, command_count := 0 }] := by
  refine ⟨rfl, rfl, ?_⟩
  exact filter_upsert_key _ _ _ rfl

/-- Claim C6 counterexample: the tool-call logger does not exit 0 regardless
of internal failure; when its store write fails (here on a well-formed Bash
request) the exception escapes and the process exits nonzero. -/
theorem exit_status_counterexample :
    (commandTrackerRun (some "s") 0
        (some { tool_name := some "Bash", file_path := none, command := some "ls",
                pattern := none, description := none, params_json := "" })
        false []).2 ≠ HookExit.ok := by
  decide

/-- Claim C6 amended: every hook exits 0 on a well-formed request provided
its own store write succeeds; the session logger exits 0 even when reading
the tool-call store fails, and the test runner exits 0 whatever the test
subprocess outcome; the deployer exits 1 exactly when it finds no hooks to
deploy.  (Malformed input and a failing store write remain fatal, as the
counterexample shows.) -/
theorem exit_status_amended :
    (∀ i : HookInput, (grepToRgRun (some i)).2 = HookExit.ok)
    ∧ (∀ i : HookInput, (npmToPnpmRun (some i)).2 = HookExit.ok)
    ∧ (∀ (env : Option String) (now : Nat) (i : CTInput) (db : List ToolCallRow),
        (commandTrackerRun env now (some i) true db).2 = HookExit.ok)
    ∧ (∀ (env : Option String) (now : Nat) (i : SAInput) (db : List SubagentRow),
        (subagentTrackerRun env now (some i) true db).2 = HookExit.ok)
    ∧ (∀ (eS eM : Option String) (now : Nat) (toolDb : Option (List ToolCallRow))
        (sessDb : List SessionRow),
        (sessionTrackerRun eS eM now (some ()) toolDb true sessDb).2 = HookExit.ok)
    ∧ (∀ (i : HookInput) (envPaths : String) (isFile : String → Bool)
        (hp hpp : Bool) (dir : String) (outcome : TestOutcome),
        (testRunnerRun (some i) envPaths isFile hp hpp dir outcome).2 = HookExit.ok)
    ∧ (∀ (src : Option (List String)) (settings : HookSettings),
        (deployerRun src settings).2 = HookExit.exit1 ↔ get_hook_files src = []) := by
  refine ⟨fun i => rfl, fun i => rfl, fun env now i db => rfl, fun env now i db => rfl,
    fun eS eM now toolDb sessDb => rfl, fun i envPaths isFile hp hpp dir outcome => rfl,
    ?_⟩
  intro src settings
  unfold deployerRun
  by_cases h : (get_hook_files src).isEmpty
  · simp [h]
    exact List.isEmpty_iff.mp h
  · simp [h]
    intro hc
    rw [hc] at h
    simp at h

theorem lookup_assocSet_self (k : String) (v : α) :
    ∀ l : List (String × α), (assocSet k v l).lookup k = some v := by
  intro l
  induction l with
  | nil => simp [assocSet, List.lookup]
  | cons p rest ih =>
      obtain ⟨k', v'⟩ := p
      by_cases h : k' = k
      · simp [assocSet, h, List.lookup]
      · have hne : (k == k') = false := by
          simp [Ne.symm h]
        simp [assocSet, h, List.lookup, hne, ih]

theorem hookList0_mergeEvent (gs : List HookGroup) (new : List HookEntry) :
    hookList0 (mergeEvent gs new) =
      (hookList0 gs).filter
        (fun h => !((new.map (fun n => n.command)).contains h.command)) ++ new := by
  cases gs <;> simp [mergeEvent, hookList0]

theorem countCmd_append (a b : List HookEntry) (c : String) :
    countCmd (a ++ b) c = countCmd a c + countCmd b c := by
  simp [countCmd, List.countP_append]

theorem countCmd_filter_out (l : List HookEntry) (cmds : List String) (c : String)
    (hc : cmds.contains c = true) :
    countCmd (l.filter (fun h => !(cmds.contains h.command))) c = 0 := by
  induction l with
  | nil => rfl
  | cons a t ih =>
      by_cases h : cmds.contains a.command = true
      · simp only [List.filter_cons, h, Bool.not_true, if_neg]
        simpa using ih
      · have hne : (a.command == c) = false := by
          by_cases hac : a.command = c
          · rw [hac] at h; exact absurd hc h
          · simp [hac]
        have hcf : cmds.contains a.command = false := by simpa using h
        simp only [List.filter_cons]
        rw [if_pos (by rw [hcf]; rfl)]
        simp only [countCmd, List.countP_cons, hne]
        simpa [countCmd] using ih

theorem update_settings_single (s : HookSettings) (h : DeployedHook) :
    group0 (update_settings s [h]) (inferEventType h.stem) =
      (group0 s (inferEventType h.stem)).filter
        (fun x => !(([h.path] : List String).contains x.command))
      ++ [⟨h.stem, "command", h.path⟩] := by
  unfold group0 update_settings buildHookConfigs
  simp only [List.foldl, List.lookup]
  rw [lookup_assocSet_self]
  simp only [Option.getD_some]
  rw [hookList0_mergeEvent]
  simp

theorem update_settings_pair (s : HookSettings) (h1 h2 : DeployedHook)
    (he : inferEventType h2.stem = inferEventType h1.stem) :
    group0 (update_settings s [h1, h2]) (inferEventType h1.stem) =
      (group0 s (inferEventType h1.stem)).filter
        (fun x => !(([h1.path, h2.path] : List String).contains x.command))
      ++ [⟨h1.stem, "command", h1.path⟩, ⟨h2.stem, "command", h2.path⟩] := by
  unfold group0 update_settings buildHookConfigs
  simp only [List.foldl, List.lookup, he, beq_self_eq_true, assocSet, if_pos]
  rw [lookup_assocSet_self]
  simp only [Option.getD_some]
  rw [hookList0_mergeEvent]
  simp

/-- Claim C5 counterexample: the merge step does not make command paths
unique per event type; pre-existing duplicate entries whose command is not
among the deployed ones survive, so the settings document can hold two
entries with the same command path after the merge. -/
theorem deployer_dedup_counterexample :
    ¬ (eventCommands
        (update_settings
          [("PreToolUse",
            [{ hooks := [{ name := "a", type := "command", command := "/x" },
                         { name := "b", type := "command", command := "/x" }] }])]
          [{ stem := "zhook", path := "/y" }])
        "PreToolUse").Nodup := by
  decide

/-- Claim C5 amended: deduplication holds for the deployed command paths:
after the merge each deployed hook's command path occurs exactly once in the
event's first group (also after deploying the same hook twice in a row),
two different hooks inferring the same event type each get exactly one
entry, and pre-existing entries with other command paths are preserved;
pre-existing duplicates among untouched commands are not removed. -/
theorem deployer_dedup_amended :
    (∀ (s : HookSettings) (h : DeployedHook),
        countCmd (group0 (update_settings s [h]) (inferEventType h.stem)) h.path = 1)
    ∧ (∀ (s : HookSettings) (h : DeployedHook),
        countCmd
          (group0 (update_settings (update_settings s [h]) [h]) (inferEventType h.stem))
          h.path = 1)
    ∧ (∀ (s : HookSettings) (h1 h2 : DeployedHook),
        inferEventType h2.stem = inferEventType h1.stem → h1.path ≠ h2.path →
          countCmd (group0 (update_settings s [h1, h2]) (inferEventType h1.stem))
            h1.path = 1
          ∧ countCmd (group0 (update_settings s [h1, h2]) (inferEventType h1.stem))
            h2.path = 1)
    ∧ (∀ (s : HookSettings) (h : DeployedHook) (x : HookEntry),
        x ∈ group0 s (inferEventType h.stem) → x.command ≠ h.path →
          x ∈ group0 (update_settings s [h]) (inferEventType h.stem)) := by
  have key : ∀ (s : HookSettings) (h : DeployedHook),
      countCmd (group0 (update_settings s [h]) (inferEventType h.stem)) h.path = 1 := by
    intro s h
    rw [update_settings_single, countCmd_append,
      countCmd_filter_out _ _ _ (by simp)]
    simp [countCmd]
  refine ⟨key, fun s h => key _ h, ?_, ?_⟩
  · intro s h1 h2 he hne
    constructor
    · rw [update_settings_pair _ _ _ he, countCmd_append,
        countCmd_filter_out _ _ _ (by simp)]
      have h21 : (h2.path == h1.path) = false := by simp [Ne.symm hne]
      simp [countCmd, List.countP_cons, h21]
    · rw [update_settings_pair _ _ _ he, countCmd_append,
        countCmd_filter_out _ _ _ (by simp)]
      have h12 : (h1.path == h2.path) = false := by simp [hne]
      simp [countCmd, List.countP_cons, h12]
  · intro s h x hx hne
    rw [update_settings_single]
    apply List.mem_append_left
    rw [List.mem_filter]
    exact ⟨hx, by simp [hne]⟩

theorem deployer_dedup_amended_witness :
    countCmd
        (group0 (update_settings []
          [{ stem := "a", path := "/pa" }, { stem := "b", path := "/pb" }])
          (inferEventType "a")) "/pa" = 1
    ∧ countCmd
        (group0 (update_settings []
          [{ stem := "a", path := "/pa" }, { stem := "b", path := "/pb" }])
          (inferEventType "a")) "/pb" = 1 :=
  deployer_dedup_amended.2.2.1 [] { stem := "a", path := "/pa" }
    { stem := "b", path := "/pb" } (by decide) (by decide)

theorem is_test_file_true_some (fp : List Char) (h : (is_test_file fp).1 = true) :
    ∃ l, (is_test_file fp).2 = some l := by
  unfold is_test_file at h ⊢
  split_ifs at h ⊢ <;> simp_all

theorem classifyFiles_fst (isFile : String → Bool) :
    ∀ paths, (classifyFiles isFile paths).1 = paths.filter (touchedTestFile isFile) := by
  intro paths
  induction paths with
  | nil => rfl
  | cons fp rest ih =>
      by_cases he : fp = ""
      · simp [classifyFiles, he, touchedTestFile, List.filter_cons, ih]
      · by_cases hf : isFile fp = true
        · by_cases h2 : (is_test_file fp.data).1 = true
          · simp [classifyFiles, he, hf, h2, touchedTestFile, List.filter_cons, ih]
          · have h2' : (is_test_file fp.data).1 = false := by simpa using h2
            simp [classifyFiles, he, hf, h2', touchedTestFile, List.filter_cons, ih]
        · have hf' : isFile fp = false := by simpa using hf
          simp [classifyFiles, he, hf', touchedTestFile, List.filter_cons, ih]

theorem classifyFiles_snd (isFile : String → Bool) :
    ∀ paths, (classifyFiles isFile paths).2 =
      (paths.find? (touchedTestFile isFile)).bind (fun fp => (is_test_file fp.data).2) := by
  intro paths
  induction paths with
  | nil => rfl
  | cons fp rest ih =>
      by_cases he : fp = ""
      · simp [classifyFiles, he, touchedTestFile, List.find?_cons, ih]
      · by_cases hf : isFile fp = true
        · by_cases h2 : (is_test_file fp.data).1 = true
          · obtain ⟨l, hl⟩ := is_test_file_true_some fp.data h2
            simp [classifyFiles, he, hf, h2, hl, touchedTestFile, List.find?_cons]
          · have h2' : (is_test_file fp.data).1 = false := by simpa using h2
            simp [classifyFiles, he, hf, h2', touchedTestFile, List.find?_cons, ih]
        · have hf' : isFile fp = false := by simpa using hf
          simp [classifyFiles, he, hf', touchedTestFile, List.find?_cons, ih]

/-- Claim C9: the classification keeps exactly the nonempty, existing,
pattern-matching touched paths in order; the run's language is the one of
the first kept path; inside is_test_file the languages are tried in order
python, javascript, go, rust and the first match wins; and with no
classified test file the hook stops with no effect. -/
theorem test_runner_classification :
    (∀ (isFile : String → Bool) (paths : List String),
        (classifyFiles isFile paths).1 = paths.filter (touchedTestFile isFile))
    ∧ (∀ (isFile : String → Bool) (paths : List String),
        (classifyFiles isFile paths).2 =
          (paths.find? (touchedTestFile isFile)).bind
            (fun fp => (is_test_file fp.data).2))
    ∧ (∀ fp, pyTestFile fp = true → is_test_file fp = (true, some "python"))
    ∧ (∀ fp, pyTestFile fp = false → jsTestFile fp = true →
        is_test_file fp = (true, some "javascript"))
    ∧ (∀ fp, pyTestFile fp = false → jsTestFile fp = false → goTestFile fp = true →
        is_test_file fp = (true, some "go"))
    ∧ (∀ fp, pyTestFile fp = false → jsTestFile fp = false → goTestFile fp = false →
        rustTestFile fp = true → is_test_file fp = (true, some "rust"))
    ∧ (∀ fp, pyTestFile fp = false → jsTestFile fp = false → goTestFile fp = false →
        rustTestFile fp = false → is_test_file fp = (false, none))
    ∧ (∀ (tn : Option String) (env : String) (isFile : String → Bool)
        (hp hpp : Bool) (dir : String),
        (classifyFiles isFile (parsePaths env)).1 = [] →
        testRunnerDecision tn env isFile hp hpp dir = none) := by
  refine ⟨classifyFiles_fst, classifyFiles_snd, ?_, ?_, ?_, ?_, ?_, ?_⟩
  · intro fp h
    simp [is_test_file, h]
  · intro fp h1 h2
    simp [is_test_file, h1, h2]
  · intro fp h1 h2 h3
    simp [is_test_file, h1, h2, h3]
  · intro fp h1 h2 h3 h4
    simp [is_test_file, h1, h2, h3, h4]
  · intro fp h1 h2 h3 h4
    simp [is_test_file, h1, h2, h3, h4]
  · intro tn env isFile hp hpp dir h
    simp [testRunnerDecision, h]

theorem test_runner_classification_witness :
    is_test_file ("test_a.py" : String).data = (true, some "python") :=
  test_runner_classification.2.2.1 ("test_a.py" : String).data (by decide)

theorem mNpmWord_true (s : List Char) : mNpmWord true s = none := by
  simp [mNpmWord]

theorem mNpmWord_head_ne (pw : Bool) (c : Char) (l : List Char) (hc : c ≠ 'n') :
    mNpmWord pw (c :: l) = none := by
  cases pw with
  | true => exact mNpmWord_true _
  | false =>
      cases l with
      | nil => rfl
      | cons x xs =>
          cases xs with
          | nil => rfl
          | cons y ys => simp [mNpmWord, hc]

theorem mNpmWord_two_ne (pw : Bool) (c d : Char) (l : List Char) (hd : d ≠ 'p') :
    mNpmWord pw (c :: d :: l) = none := by
  cases pw with
  | true => exact mNpmWord_true _
  | false =>
      cases l with
      | nil => rfl
      | cons y ys => simp [mNpmWord, hd]

theorem mNpmWord_three_ne (pw : Bool) (c d e : Char) (l : List Char) (he : e ≠ 'm') :
    mNpmWord pw (c :: d :: e :: l) = none := by
  cases pw with
  | true => exact mNpmWord_true _
  | false => simp [mNpmWord, he]

theorem mNpmWord_nb (pw : Bool) (c d e : Char) (l : List Char)
    (hb : boundaryAfter l = false) : mNpmWord pw (c :: d :: e :: l) = none := by
  cases pw with
  | true => exact mNpmWord_true _
  | false => simp [mNpmWord, hb]

theorem mNpmWord_eq_some {pw : Bool} {s r : List Char} (h : mNpmWord pw s = some r) :
    pw = false ∧ s = 'n' :: 'p' :: 'm' :: r ∧ boundaryAfter r = true := by
  cases pw with
  | true => rw [mNpmWord_true] at h; exact absurd h (by simp)
  | false =>
      refine ⟨rfl, ?_⟩
      rcases s with _ | ⟨c1, _ | ⟨c2, _ | ⟨c3, rest⟩⟩⟩
      · simp [mNpmWord] at h
      · simp [mNpmWord] at h
      · simp [mNpmWord] at h
      · by_cases hcond : c1 = 'n' ∧ c2 = 'p' ∧ c3 = 'm' ∧ boundaryAfter rest = true
        · obtain ⟨h1, h2, h3, hb⟩ := hcond
          subst h1; subst h2; subst h3
          have hsome : mNpmWord false ('n' :: 'p' :: 'm' :: rest) = some rest := by
            simp [mNpmWord, hb]
          rw [hsome] at h
          injection h with h
          subst h
          exact ⟨rfl, hb⟩
        · simp [mNpmWord, hcond] at h

theorem reSubF_nil (m : Bool → List Char → Option (List Char)) (repl : List Char) :
    ∀ (f : Nat) (pw : Bool), reSubF m repl f pw [] = [] := by
  intro f pw
  cases f <;> rfl

theorem reSubF_word_step (repl : List Char) (f : Nat) (x : Char) (xs : List Char) :
    reSubF mNpmWord repl (f + 1) true (x :: xs) =
      x :: reSubF mNpmWord repl f (isWordChar x) xs := by
  simp [reSubF, mNpmWord_true]

theorem mNpmWord_none_step (f : Nat) (pw : Bool) (c : Char) (cs : List Char)
    (hlen : cs.length ≤ f) (hm : mNpmWord pw (c :: cs) = none) :
    mNpmWord pw (c :: reSubF mNpmWord "pnpm".data f (isWordChar c) cs) = none := by
  cases pw with
  | true => exact mNpmWord_true _
  | false =>
      by_cases hc : c = 'n'
      · subst hc
        have wn : isWordChar 'n' = true := by decide
        rw [wn]
        cases cs with
        | nil => rw [reSubF_nil]; exact hm
        | cons d ds =>
            obtain ⟨f1, rfl⟩ : ∃ f1, f = f1 + 1 := by
              cases f with
              | zero => exfalso; simp only [List.length_cons] at hlen; omega
              | succ f1 => exact ⟨f1, rfl⟩
            rw [reSubF_word_step]
            by_cases hd : d = 'p'
            · subst hd
              have wp : isWordChar 'p' = true := by decide
              rw [wp]
              cases ds with
              | nil => rw [reSubF_nil]; exact hm
              | cons e es =>
                  obtain ⟨f2, rfl⟩ : ∃ f2, f1 = f2 + 1 := by
                    cases f1 with
                    | zero => exfalso; simp only [List.length_cons] at hlen; omega
                    | succ f2 => exact ⟨f2, rfl⟩
                  rw [reSubF_word_step]
                  by_cases he : e = 'm'
                  · subst he
                    have wm : isWordChar 'm' = true := by decide
                    rw [wm]
                    have hb : boundaryAfter es = false := by
                      by_cases hbb : boundaryAfter es = true
                      · exfalso
                        have hsome : mNpmWord false ('n' :: 'p' :: 'm' :: es) = some es := by
                          simp [mNpmWord, hbb]
                        rw [hsome] at hm
                        exact absurd hm (by simp)
                      · simpa using hbb
                    cases es with
                    | nil => simp [boundaryAfter] at hb
                    | cons g gs =>
                        have hg : isWordChar g = true := by
                          simpa [boundaryAfter] using hb
                        obtain ⟨f3, rfl⟩ : ∃ f3, f2 = f3 + 1 := by
                          cases f2 with
                          | zero => exfalso; simp only [List.length_cons] at hlen; omega
                          | succ f3 => exact ⟨f3, rfl⟩
                        rw [reSubF_word_step]
                        apply mNpmWord_nb
                        simp [boundaryAfter, hg]
                  · exact mNpmWord_three_ne _ _ _ _ _ he
            · exact mNpmWord_two_ne _ _ _ _ hd
      · exact mNpmWord_head_ne _ _ _ hc

theorem no_npm_after_gen :
    ∀ (f : Nat) (s : List Char) (pw : Bool), s.length ≤ f →
      hasWordNpm pw (reSubF mNpmWord "pnpm".data f pw s) = false := by
  intro f
  induction f with
  | zero =>
      intro s pw h
      have hs : s = [] := List.length_eq_zero.mp (Nat.le_zero.mp h)
      subst hs
      rfl
  | succ f ih =>
      intro s pw h
      cases s with
      | nil => rw [reSubF_nil]; rfl
      | cons c cs =>
          cases hm : mNpmWord pw (c :: cs) with
          | none =>
              have hout : reSubF mNpmWord "pnpm".data (f + 1) pw (c :: cs) =
                  c :: reSubF mNpmWord "pnpm".data f (isWordChar c) cs := by
                simp only [reSubF, hm]
              have hlen : cs.length ≤ f := by
                simp only [List.length_cons] at h; omega
              have hhead := mNpmWord_none_step f pw c cs hlen hm
              rw [hout]
              simp [hasWordNpm, hhead, ih cs (isWordChar c) hlen]
          | some rest =>
              obtain ⟨hpw, hshape, hbnd⟩ := mNpmWord_eq_some hm
              subst hpw
              injection hshape with hc hcs
              subst hc
              subst hcs
              have h3 : ('n' :: 'p' :: 'm' :: rest).length - rest.length = 3 := by
                simp only [List.length_cons]; omega
              have hlast : (['n', 'p', 'm'] : List Char).getLast? = some 'm' := rfl
              have hwm : isWordChar 'm' = true := by decide
              have hout : reSubF mNpmWord "pnpm".data (f + 1) false
                  ('n' :: 'p' :: 'm' :: rest) =
                  "pnpm".data ++ reSubF mNpmWord "pnpm".data f true rest := by
                simp only [reSubF, hm, h3, List.take_succ_cons, List.take_zero, hlast, hwm]
              rw [hout]
              have hlen : rest.length ≤ f := by
                simp only [List.length_cons] at h; omega
              have hdata : ("pnpm" : String).data = ['p', 'n', 'p', 'm'] := rfl
              rw [hdata]
              have e0 : ∀ l : List Char, mNpmWord false ('p' :: l) = none :=
                fun l => mNpmWord_head_ne false 'p' l (by decide)
              have wp : isWordChar 'p' = true := by decide
              have wn : isWordChar 'n' = true := by decide
              simp [hasWordNpm, e0, wp, wn, hwm, mNpmWord_true, ih rest true hlen]

theorem npmRewrite_no_word_npm (cmd : List Char) :
    hasWordNpm false (npmRewrite cmd) = false := by
  simp only [npmRewrite, reSub]
  exact no_npm_after_gen _ _ _ le_rfl

set_option maxHeartbeats 2000000 in
/-- Claim C3: for every Bash request whose command contains the word-bounded
token `npm`, the rewriter emits a response whose command is the rewritten
text and contains no remaining word-bounded `npm`; the subcommand-specific
mappings hold as stated (install-with-argument turns into add, global
install into add -g, uninstall into remove, npm test into pnpm test, bare
install into pnpm install), which also shows the specific rules take effect
before the blanket replacement. -/
theorem npm_rewriter_mapping :
    (∀ i : HookInput, i.toolName = some "Bash" →
        hasWordNpm false (inputCommand i).data = true →
        npmToPnpm i =
          some ⟨"PreToolUse", "allow", String.mk (npmRewrite (inputCommand i).data)⟩
        ∧ hasWordNpm false (npmRewrite (inputCommand i).data) = false)
    ∧ String.mk (npmRewrite ("npm install pkg" : String).data) = "pnpm add pkg"
    ∧ String.mk (npmRewrite ("npm install -g pkg" : String).data) = "pnpm add -g pkg"
    ∧ String.mk (npmRewrite ("npm uninstall pkg" : String).data) = "pnpm remove pkg"
    ∧ String.mk (npmRewrite ("npm test" : String).data) = "pnpm test"
    ∧ String.mk (npmRewrite ("npm install" : String).data) = "pnpm install" := by
  refine ⟨?_, by decide, by decide, by decide, by decide, by decide⟩
  intro i h1 h2
  exact ⟨by simp [npmToPnpm, h1, h2], npmRewrite_no_word_npm _⟩

theorem npm_rewriter_mapping_witness :
    npmToPnpm ⟨some "Bash", some "npm test"⟩ =
        some ⟨"PreToolUse", "allow",
          String.mk (npmRewrite (inputCommand ⟨some "Bash", some "npm test"⟩).data)⟩
    ∧ hasWordNpm false
        (npmRewrite (inputCommand ⟨some "Bash", some "npm test"⟩).data) = false :=
  npm_rewriter_mapping.1 ⟨some "Bash", some "npm test"⟩ rfl (by decide)

/-- Claim C10: the rewritten command never contains a word-bounded `npm`
token (each introduced `pnpm` is shielded by its leading word character), so
a second application of the npm rewriter to its own output finds no trigger
and emits nothing, leaving the command unchanged. -/
theorem npm_rewriter_fixpoint (i : HookInput) (o : HookOutput)
    (h : npmToPnpm i = some o) :
    hasWordNpm false o.command.data = false
    ∧ npmToPnpm { toolName := i.toolName, command := some o.command } = none := by
  unfold npmToPnpm at h
  by_cases h1 : i.toolName = some "Bash"
  · rw [if_pos h1] at h
    by_cases h2 : hasWordNpm false (inputCommand i).data = true
    · rw [if_pos h2] at h
      injection h with h
      have hcmd : o.command = String.mk (npmRewrite (inputCommand i).data) := by
        rw [← h]
      have hdata : o.command.data = npmRewrite (inputCommand i).data := by
        rw [hcmd]
      constructor
      · rw [hdata]
        exact npmRewrite_no_word_npm _
      · unfold npmToPnpm
        rw [if_pos h1]
        have hin : inputCommand ⟨i.toolName, some o.command⟩ = o.command := rfl
        have hz : hasWordNpm false
            (inputCommand ⟨i.toolName, some o.command⟩).data = false := by
          rw [hin, hdata]
          exact npmRewrite_no_word_npm _
        rw [if_neg (by rw [hz]; simp)]
    · rw [if_neg h2] at h
      exact absurd h (by simp)
  · rw [if_neg h1] at h
    exact absurd h (by simp)

set_option maxHeartbeats 2000000 in
theorem npm_rewriter_fixpoint_witness :
    hasWordNpm false ("pnpm run build" : String).data = false
    ∧ npmToPnpm { toolName := some "Bash", command := some "pnpm run build" } = none :=
  npm_rewriter_fixpoint ⟨some "Bash", some "npm run build"⟩
    ⟨"PreToolUse", "allow", "pnpm run build"⟩ (by decide)
